import Mathlib

/-!
Verification of the traversal/heuristic core of the Spotify→Deezer chain
downloader (`Deez Nuts.py`), as a shallow embedding in Lean 4.

The embedding models:
* `is_valid_url` and the stdlib `urlparse` fields it reads (scheme, netloc);
* the `re.search(r'artist/(\w+)', link)` identifier extraction;
* `SpotifyDeezerWildChainDownloader.process_artist` together with its helpers
  `download_artist`, `find_deezer_artist` and `get_wildly_different_artists`;
* the driver loop of `SpotifyDeezerWildChainDownloader.run`.

Network calls, the external `deemix` subprocess and randomness are modelled as
an explicit environment record (`Env`): a `none` result of a catalog lookup
models a raised exception or an empty search result exactly where the Python
code observes one, `downloadOk` tells whether the blocking download of a given
Deezer id succeeds, and `shuffle`/`sample` stand for `random.shuffle` /
`random.sample` (theorems that depend on sampling take the documented
contract of `random.sample` as a hypothesis).

All shared mutable state of the downloader thread (`processed_artists`,
`processed_genres`, `artist_queue`, and the tree edges created by
`node.children.append`) is carried in an explicit state record `DState`.
The per-artist workers of one batch synchronise on a single mutex for the
check-and-insert on `processed_artists`, so any concurrent execution of
`process_artist` calls linearises to a sequence of the atomic state updates
modelled here; the driver waits for the whole batch (`as_completed`) before
looping.  GUI callbacks are modelled as an emitted event trace.
-/

namespace DeezNuts

/-! ## URL validation (`is_valid_url`, lines 30–35) -/

/-- Characters allowed in a URL scheme after the leading letter.
Modelled from the Python standard library `urllib.parse`. -/
def isSchemeChar (c : Char) : Bool :=
  c.isAlpha || c.isDigit || c = '+' || c = '-' || c = '.'

/-- Split a character list at the first colon, returning the parts before and
after it. -/
def splitAtColon : List Char → Option (List Char × List Char)
  | [] => none
  | c :: cs =>
    if c = ':' then some ([], cs)
    else
      match splitAtColon cs with
      | none => none
      | some (a, b) => some (c :: a, b)

/-- The network-location part of the remainder of a URL after the scheme:
present only when the remainder starts with `//`, and extends to the next
`/`, `?` or `#`.  Modelled from the Python standard library `urlparse`. -/
def netlocOf : List Char → List Char
  | '/' :: '/' :: r => r.takeWhile (fun c => c ≠ '/' && c ≠ '?' && c ≠ '#')
  | _ => []

/-- Modelled from the Python standard library `urlparse`, restricted to the
two fields the program reads: `(scheme, netloc)`.  A scheme is recognised
when a colon is present and everything before it is a letter followed by
scheme characters (case normalisation is irrelevant to the inputs at issue
and elided). -/
def urlparse (url : String) : String × String :=
  let cs := url.toList
  let p :=
    match splitAtColon cs with
    | some (pre, post) =>
      if !pre.isEmpty && pre.all isSchemeChar && (pre.headD ' ').isAlpha then
        (pre, post)
      else ([], cs)
    | none => ([], cs)
  (String.mk p.1, String.mk (netlocOf p.2))

/-- Python's substring test `needle in hay` on strings, over character
lists. -/
def isSubstring (needle : List Char) : List Char → Bool
  | [] => needle.isEmpty
  | c :: t => needle.isPrefixOf (c :: t) || isSubstring needle t

/-- `is_valid_url` (lines 30–35): the parse must yield a truthy (non-empty)
scheme and netloc, and some allowed domain must occur in the netloc as a
substring (`domain in result.netloc`). -/
def is_valid_url (url : String) (allowed_domains : List String) : Bool :=
  let p := urlparse url
  (!p.1.isEmpty && !p.2.isEmpty)
    && allowed_domains.any (fun d => isSubstring d.toList p.2.toList)

/-! ## Identifier extraction (`re.search(r'artist/(\w+)', link)`, line 145) -/

/-- `\w` of the regex: word characters. -/
def isWordChar (c : Char) : Bool := c.isAlphanum || c = '_'

/-- The literal part of the pattern `artist/(\w+)`. -/
def artistPat : List Char := "artist/".toList

/-- Leftmost match of `artist/(\w+)`: at each position, if the literal
`artist/` matches and is followed by at least one word character, the capture
is the maximal word-character run; otherwise the search resumes one position
to the right (regex backtracking). -/
def extractIdAux : List Char → Option (List Char)
  | [] => none
  | c :: cs =>
    let here :=
      if artistPat.isPrefixOf (c :: cs) then
        let w := ((c :: cs).drop artistPat.length).takeWhile isWordChar
        if w.isEmpty then none else some w
      else none
    match here with
    | some w => some w
    | none => extractIdAux cs

/-- `re.search(r'artist/(\w+)', link).group(1)` as used in `run` (line 145);
`none` models `re.search` returning `None` (the subsequent `.group` call then
raises, landing in the driver's exception handler). -/
def extract_artist_id (link : String) : Option String :=
  (extractIdAux link.toList).map String.mk

/-! ## Data model -/

/-- `ArtistNode` (lines 37–44), restricted to the fields the traversal logic
reads: the `children` list is tracked globally as `DState.edges` (one entry
per `node.children.append`), and `downloaded`/`deezer_id` are write-only for
the claims at issue. -/
structure Node where
  spotify_id : String
  name : String
  depth : Nat
deriving DecidableEq, Repr

/-- The two fields of a Spotify artist object the program reads. -/
structure SpArtist where
  name : String
  genres : List String
deriving DecidableEq, Repr

/-- A related-artist entry (`sp.artist_related_artists(...)['artists']`
element): the program reads its `id` and `name`. -/
structure RelArtist where
  id : String
  name : String
deriving DecidableEq, Repr

/-- The two fields of a Deezer artist object the program reads. -/
structure DeezerArtist where
  id : Nat
  name : String
deriving DecidableEq, Repr

/-- External world: catalog lookups, the downloader subprocess and the random
number generator.  A `none` result of `spArtist`/`spRelated` models the call
raising an exception; `findDeezer` already folds `find_deezer_artist`
(lines 267–275), which catches its own errors and returns `None` both on an
empty search result and on an exception.  `downloadOk d = false` models an
exception inside `download_artist` for Deezer id `d` (its only `False`
path). `shuffle` and `sample` stand for `random.shuffle` / `random.sample`. -/
structure Env where
  spArtist : String → Option SpArtist
  findDeezer : String → Option DeezerArtist
  spRelated : String → Option (List RelArtist)
  downloadOk : Nat → Bool
  shuffle : List RelArtist → List RelArtist
  sample : List RelArtist → Nat → List RelArtist

/-- The configuration of one `SpotifyDeezerWildChainDownloader` run
(constructor arguments read by the traversal logic). -/
structure Config where
  spotify_link : String
  max_artists : Nat
  max_concurrent : Nat
  wild_branching : Bool
  wildly_different : Bool
  max_depth : Nat
  related_limit : Nat
deriving Repr

/-- GUI callbacks observed as events: `output_callback`,
`progress_callback`, `artist_finished_callback`, `tree_updated_callback`
and `finished_callback`.  Exception texts (`str(e)`) interpolated into log
lines are elided. -/
inductive Event where
  | output (msg : String)
  | progress (value : Nat) (artist : String)
  | artistFinished (label : String) (success : Bool)
  | treeUpdated
  | finished
deriving DecidableEq, Repr

/-- The downloader thread's shared mutable state: `processed_artists`
(insertion-ordered, inserted only after a membership check, so it is a set),
`processed_genres` (same discipline via `unionGenres`), the FIFO
`artist_queue`, and the tree edges `(parent spotify id, child node)` created
by `node.children.append(child_node)`. -/
structure DState where
  processed : List String
  processedGenres : List String
  queue : List Node
  edges : List (String × Node)
deriving DecidableEq, Repr

/-- Python `set.update` with one new element: add it unless present. -/
def insertNew (x : String) (xs : List String) : List String :=
  if x ∈ xs then xs else xs ++ [x]

/-- Python `set.update` with an iterable of elements. -/
def unionGenres (acc : List String) (new : List String) : List String :=
  new.foldl (fun a g => insertNew g a) acc

/-! ## Relative-selection heuristic
(`get_wildly_different_artists`, lines 237–265) -/

/-- The keep loop of `get_wildly_different_artists` (lines 242–258): for each
candidate, fetch its full record; on an exception, log and move on (the break
check inside the `try` is skipped); otherwise keep the candidate exactly when
it has a genre outside the processed-genre set, merging its new genres in,
and break as soon as the kept list has reached `limit` entries.  Returns the
kept candidates, the updated genre set and the emitted log events. -/
def gwdaKeep (env : Env) (limit : Nat) :
    List RelArtist → List RelArtist → List String →
    List RelArtist × List String × List Event
  | [], kept, g => (kept, g, [])
  | a :: rest, kept, g =>
    match env.spArtist a.id with
    | none =>
      let r := gwdaKeep env limit rest kept g
      (r.1, r.2.1, Event.output ("Error processing related artist " ++ a.name) :: r.2.2)
    | some full =>
      let newg := full.genres.filter (fun x => ¬ x ∈ g)
      if newg.isEmpty then
        if limit ≤ kept.length then (kept, g, [])
        else gwdaKeep env limit rest kept g
      else
        let kept' := kept ++ [a]
        let g' := unionGenres g newg
        if limit ≤ kept'.length then (kept', g', [])
        else gwdaKeep env limit rest kept' g'

/-- The count passed to `random.sample` in the top-up step (line 263):
`min(len(remaining), self.related_limit - len(wildly_different))`. -/
def topUpCount (limit keptLen poolLen : Nat) : Nat :=
  min poolLen (limit - keptLen)

/-- `get_wildly_different_artists` (lines 237–265): merge the source artist's
genres into the processed-genre set, run the keep loop, and if fewer than
`limit` candidates were kept, top up with a random sample (without
replacement) from the candidates not kept.  Returns the selected relatives,
the updated processed-genre set and the emitted log events. -/
def get_wildly_different_artists (env : Env) (limit : Nat) (source : SpArtist)
    (rel : List RelArtist) (genres0 : List String) :
    List RelArtist × List String × List Event :=
  let g1 := unionGenres genres0 source.genres
  let r := gwdaKeep env limit rel [] g1
  let kept := r.1
  if kept.length < limit then
    let remaining := rel.filter (fun a => ¬ a ∈ kept)
    (kept ++ env.sample remaining (topUpCount limit kept.length remaining.length),
     r.2.1, r.2.2)
  else (kept, r.2.1, r.2.2)

/-! ## Per-artist worker (`process_artist`, lines 170–200) -/

/-- `download_artist` (lines 202–228): writes and runs the launcher script and
waits for the subprocess; on success it logs and reports 100% progress and
returns `True`, on any exception it logs and returns `False`. -/
def download_artist (env : Env) (da : DeezerArtist) : Bool × List Event :=
  if env.downloadOk da.id then
    (true, [Event.output ("Successfully downloaded artist: " ++ da.name),
            Event.progress 100 da.name])
  else
    (false, [Event.output ("Error downloading artist " ++ da.name)])

/-- The relative-fetching tail of `process_artist` (lines 186–195), entered
only when the artist cap and depth cap both leave room: fetch the related
artists (an exception lands in the worker's handler), optionally shuffle
(`wild_branching`) and/or apply the wildly-different heuristic, then create
one child node per selected relative at depth `node.depth + 1`, append it to
the parent's children and enqueue it, and emit a tree snapshot. -/
def dispatchChildren (cfg : Config) (env : Env) (s : DState) (node : Node)
    (sa : SpArtist) : DState × List Event :=
  match env.spRelated node.spotify_id with
  | none => (s, [Event.output ("Error processing artist " ++ node.name)])
  | some rel0 =>
    let rel1 := if cfg.wild_branching then env.shuffle rel0 else rel0
    let r :=
      if cfg.wildly_different then
        get_wildly_different_artists env cfg.related_limit sa rel1 s.processedGenres
      else (rel1, s.processedGenres, [])
    let children := (r.1.take cfg.related_limit).map
      (fun a => Node.mk a.id a.name (node.depth + 1))
    ({ s with processedGenres := r.2.1,
              queue := s.queue ++ children,
              edges := s.edges ++ children.map (fun c => (node.spotify_id, c)) },
     r.2.2 ++ [Event.treeUpdated])

/-- The body of `process_artist` after the node has won the check-and-insert
(lines 176–200): look the artist up, resolve it on Deezer by name; with no
match, log only; with a match, download, report the per-artist outcome, and
when the artist cap and depth cap leave room, fetch and enqueue relatives.
A `none` from `spArtist` or `spRelated` models the exception caught by the
worker's handler (lines 198–200), which logs but reports nothing. -/
def processDispatched (cfg : Config) (env : Env) (s : DState) (node : Node) :
    DState × List Event :=
  match env.spArtist node.spotify_id with
  | none => (s, [Event.output ("Error processing artist " ++ node.name)])
  | some sa =>
    match env.findDeezer sa.name with
    | none => (s, [Event.output ("Could not find Deezer artist for: " ++ node.name)])
    | some da =>
      let d := download_artist env da
      let finEv := Event.artistFinished
        (sa.name ++ "|" ++ node.spotify_id ++ "|" ++ toString da.id) d.1
      if s.processed.length < cfg.max_artists ∧ node.depth < cfg.max_depth then
        let c := dispatchChildren cfg env s node sa
        (c.1, d.2 ++ [finEv] ++ c.2)
      else (s, d.2 ++ [finEv])

/-- `process_artist` (lines 170–200): under the mutex, return at once when the
node's identifier is already processed or the processed-set has reached the
artist cap; otherwise insert the identifier and run the worker body. -/
def process_artist (cfg : Config) (env : Env) (s : DState) (node : Node) :
    DState × List Event :=
  if node.spotify_id ∈ s.processed ∨ cfg.max_artists ≤ s.processed.length then
    (s, [])
  else
    processDispatched cfg env { s with processed := s.processed ++ [node.spotify_id] } node

/-- Whether a `process_artist` invocation on `node` in state `s` wins the
de-duplication check-and-insert (lines 171–174) and proceeds to dispatch. -/
def dispatches (cfg : Config) (s : DState) (node : Node) : Bool :=
  !(decide (node.spotify_id ∈ s.processed)) && decide (s.processed.length < cfg.max_artists)

/-- Thread a sequence of `process_artist` invocations through the shared
state (the linearisation of the mutex-serialised check-and-inserts). -/
def runCalls (cfg : Config) (env : Env) (s : DState) (nodes : List Node) : DState :=
  nodes.foldl (fun s n => (process_artist cfg env s n).1) s

/-- Number of invocations in a sequence of `process_artist` calls that win the
de-duplication check-and-insert. -/
def winCount (cfg : Config) (env : Env) : DState → List Node → Nat
  | _, [] => 0
  | s, n :: ns =>
    (if dispatches cfg s n then 1 else 0)
      + winCount cfg env (process_artist cfg env s n).1 ns

/-! ## Traversal driver (`run`, lines 138–168) -/

/-- One batch of workers (lines 154–160): the driver submits the drained
nodes and waits for every future (`as_completed` + `future.result()`) before
looping.  The mutex serialises every access to the shared state, so a batch
is modelled as the linearised sequence of its workers' atomic updates, with
the events concatenated. -/
def processBatch (cfg : Config) (env : Env) (s : DState) (batch : List Node) :
    DState × List Event :=
  batch.foldl
    (fun acc n =>
      let r := process_artist cfg env acc.1 n
      (r.1, acc.2 ++ r.2))
    (s, [])

/-- The driver loop (lines 152–160).  `flagAt i` is the value the loop
condition reads from the cooperative `is_running` flag at the top of
iteration `i` (the flag is cleared asynchronously by `stop`, line 277).
Each iteration re-checks `queue non-empty ∧ processed < cap ∧ is_running`,
drains up to `min(max_concurrent, queue size)` nodes in FIFO order,
processes the whole batch, and loops.  `fuel` bounds the number of
iterations unfolded (the Python loop terminates because every iteration
consumes queue entries and entries are only added for newly processed
artists, which the artist cap bounds). -/
def runLoop (cfg : Config) (env : Env) (flagAt : Nat → Bool) :
    Nat → Nat → DState → List Event
  | 0, _, _ => []
  | fuel + 1, i, s =>
    if s.queue ≠ [] ∧ s.processed.length < cfg.max_artists ∧ flagAt i = true then
      let k := min cfg.max_concurrent s.queue.length
      let r := processBatch cfg env { s with queue := s.queue.drop k } (s.queue.take k)
      r.2 ++ runLoop cfg env flagAt fuel (i + 1) r.1
    else []

/-- `run` (lines 138–168): reject a link that fails `is_valid_url` against
the allow list `['open.spotify.com']`, logging and signalling finished with
no catalog interaction; otherwise extract the artist id, look up the root
artist (failure of either lands in the exception handler, which logs and
signals finished), seed the tree and the queue, run the driver loop, and
signal finished. -/
def run (cfg : Config) (env : Env) (flagAt : Nat → Bool) (fuel : Nat) : List Event :=
  if is_valid_url cfg.spotify_link ["open.spotify.com"] = false then
    [Event.output "Invalid Spotify URL. Please provide a valid Spotify artist link.",
     Event.finished]
  else
    match extract_artist_id cfg.spotify_link with
    | none => [Event.output "An error occurred: ", Event.finished]
    | some aid =>
      match env.spArtist aid with
      | none => [Event.output "An error occurred: ", Event.finished]
      | some sa =>
        let root : Node := ⟨aid, sa.name, 0⟩
        let s0 : DState := ⟨[], [], [root], []⟩
        Event.treeUpdated :: (runLoop cfg env flagAt fuel 0 s0 ++ [Event.finished])

/-! ## Structural lemmas about the worker -/

theorem dispatchChildren_processed (cfg : Config) (env : Env) (s : DState)
    (node : Node) (sa : SpArtist) :
    (dispatchChildren cfg env s node sa).1.processed = s.processed := by
  unfold dispatchChildren
  cases env.spRelated node.spotify_id <;> simp

theorem processDispatched_processed (cfg : Config) (env : Env) (s : DState)
    (node : Node) :
    (processDispatched cfg env s node).1.processed = s.processed := by
  unfold processDispatched
  cases h : env.spArtist node.spotify_id with
  | none => simp
  | some sa =>
    cases h2 : env.findDeezer sa.name with
    | none => simp [h2]
    | some da =>
      by_cases h3 : s.processed.length < cfg.max_artists ∧ node.depth < cfg.max_depth
      · simp [h2, h3, dispatchChildren_processed]
      · simp [h2, h3]

/-- The de-duplication check-and-insert (lines 171–174) is the only write to
the processed-set: a losing invocation leaves it unchanged, a winning one
appends exactly the node's identifier. -/
theorem process_artist_processed (cfg : Config) (env : Env) (s : DState)
    (node : Node) :
    (process_artist cfg env s node).1.processed =
      if node.spotify_id ∈ s.processed ∨ cfg.max_artists ≤ s.processed.length
      then s.processed
      else s.processed ++ [node.spotify_id] := by
  by_cases h : node.spotify_id ∈ s.processed ∨ cfg.max_artists ≤ s.processed.length
  · simp [process_artist, h]
  · simp [process_artist, h, processDispatched_processed]

/-- The processed-set never shrinks across a `process_artist` call. -/
theorem process_artist_processed_mono (cfg : Config) (env : Env) (s : DState)
    (node : Node) (x : String) (hx : x ∈ s.processed) :
    x ∈ (process_artist cfg env s node).1.processed := by
  rw [process_artist_processed]
  split <;> simp [hx]

/-- An invocation on an already-processed identifier returns at once: no state
change and no events (line 173's bare `return`). -/
theorem process_artist_noop (cfg : Config) (env : Env) (s : DState) (node : Node)
    (h : node.spotify_id ∈ s.processed) :
    process_artist cfg env s node = (s, []) := by
  simp [process_artist, h]

theorem process_artist_nodup (cfg : Config) (env : Env) (s : DState) (node : Node)
    (h : s.processed.Nodup) :
    (process_artist cfg env s node).1.processed.Nodup := by
  rw [process_artist_processed]
  split
  · exact h
  · next hc =>
    push_neg at hc
    simp [List.nodup_append, h, hc.1]

theorem process_artist_length_le (cfg : Config) (env : Env) (s : DState)
    (node : Node) (h : s.processed.length ≤ cfg.max_artists) :
    (process_artist cfg env s node).1.processed.length ≤ cfg.max_artists := by
  rw [process_artist_processed]
  split
  · exact h
  · next hc =>
    push_neg at hc
    obtain ⟨-, hlt⟩ := hc
    simp only [List.length_append, List.length_cons, List.length_nil]
    omega

theorem runCalls_nil (cfg : Config) (env : Env) (s : DState) :
    runCalls cfg env s [] = s := rfl

theorem runCalls_cons (cfg : Config) (env : Env) (s : DState) (n : Node)
    (ns : List Node) :
    runCalls cfg env s (n :: ns) = runCalls cfg env (process_artist cfg env s n).1 ns := rfl

theorem runCalls_nodup (cfg : Config) (env : Env) (s : DState) (ns : List Node)
    (h : s.processed.Nodup) :
    (runCalls cfg env s ns).processed.Nodup := by
  induction ns generalizing s with
  | nil => simpa [runCalls_nil]
  | cons n ns ih =>
    rw [runCalls_cons]
    exact ih _ (process_artist_nodup cfg env s n h)

theorem runCalls_length_le (cfg : Config) (env : Env) (s : DState) (ns : List Node)
    (h : s.processed.length ≤ cfg.max_artists) :
    (runCalls cfg env s ns).processed.length ≤ cfg.max_artists := by
  induction ns generalizing s with
  | nil => simpa [runCalls_nil]
  | cons n ns ih =>
    rw [runCalls_cons]
    exact ih _ (process_artist_length_le cfg env s n h)

theorem dispatchChildren_queue (cfg : Config) (env : Env) (s : DState)
    (node : Node) (sa : SpArtist) :
    ∀ c ∈ (dispatchChildren cfg env s node sa).1.queue,
      c ∈ s.queue ∨ c.depth = node.depth + 1 := by
  intro c hc
  unfold dispatchChildren at hc
  cases h : env.spRelated node.spotify_id with
  | none =>
    rw [h] at hc
    exact Or.inl hc
  | some rel0 =>
    rw [h] at hc
    simp only [List.mem_append] at hc
    rcases hc with hc | hc
    · exact Or.inl hc
    · right
      simp only [List.mem_map] at hc
      obtain ⟨a, -, rfl⟩ := hc
      rfl

theorem processDispatched_queue (cfg : Config) (env : Env) (s : DState)
    (node : Node) :
    ∀ c ∈ (processDispatched cfg env s node).1.queue,
      c ∈ s.queue ∨ (c.depth = node.depth + 1 ∧ node.depth < cfg.max_depth) := by
  intro c hc
  unfold processDispatched at hc
  cases h : env.spArtist node.spotify_id with
  | none =>
    rw [h] at hc
    exact Or.inl hc
  | some sa =>
    rw [h] at hc
    dsimp only at hc
    cases h2 : env.findDeezer sa.name with
    | none =>
      rw [h2] at hc
      exact Or.inl hc
    | some da =>
      rw [h2] at hc
      dsimp only at hc
      by_cases h3 : s.processed.length < cfg.max_artists ∧ node.depth < cfg.max_depth
      · rw [if_pos h3] at hc
        rcases dispatchChildren_queue cfg env s node sa c hc with h4 | h4
        · exact Or.inl h4
        · exact Or.inr ⟨h4, h3.2⟩
      · rw [if_neg h3] at hc
        exact Or.inl hc

/-! ## Structural lemmas about the heuristic -/

theorem gwdaKeep_length_le (env : Env) (limit : Nat) (cands : List RelArtist) :
    ∀ kept g, kept.length < limit →
      (gwdaKeep env limit cands kept g).1.length ≤ limit := by
  induction cands with
  | nil =>
    intro kept g h
    exact Nat.le_of_lt h
  | cons a rest ih =>
    intro kept g h
    unfold gwdaKeep
    cases env.spArtist a.id with
    | none => exact ih kept g h
    | some full =>
      dsimp only
      by_cases he : (full.genres.filter (fun x => ¬ x ∈ g)).isEmpty
      · rw [if_pos he, if_neg (by omega)]
        exact ih kept g h
      · rw [if_neg he]
        by_cases hb : limit ≤ (kept ++ [a]).length
        · rw [if_pos hb]
          simp only [List.length_append, List.length_cons, List.length_nil]
          omega
        · rw [if_neg hb]
          exact ih _ _ (Nat.lt_of_not_le hb)

theorem get_wildly_different_length_le (env : Env) (limit : Nat)
    (source : SpArtist) (rel : List RelArtist) (genres0 : List String)
    (hlimit : 1 ≤ limit)
    (hsample : ∀ pool k, k ≤ pool.length → (env.sample pool k).length = k) :
    (get_wildly_different_artists env limit source rel genres0).1.length ≤ limit := by
  unfold get_wildly_different_artists
  have hkept := gwdaKeep_length_le env limit rel [] (unionGenres genres0 source.genres)
    (by simpa using hlimit)
  by_cases h : (gwdaKeep env limit rel [] (unionGenres genres0 source.genres)).1.length < limit
  · rw [if_pos h]
    simp only [List.length_append]
    set kept := (gwdaKeep env limit rel [] (unionGenres genres0 source.genres)).1 with hk
    set pool := rel.filter (fun a => ¬ a ∈ kept) with hp
    have h1 : topUpCount limit kept.length pool.length ≤ pool.length :=
      Nat.min_le_left _ _
    rw [hsample pool _ h1]
    have h2 : topUpCount limit kept.length pool.length ≤ limit - kept.length :=
      Nat.min_le_right _ _
    omega
  · rw [if_neg h]
    exact hkept

/-- The success flag returned by `download_artist` is the environment's
verdict on the download of the given Deezer id. -/
theorem download_artist_fst (env : Env) (da : DeezerArtist) :
    (download_artist env da).1 = env.downloadOk da.id := by
  by_cases h : env.downloadOk da.id <;> simp [download_artist, h]

/-! ## Concrete environments and states used by closed theorems -/

/-- Environment in which the root Spotify lookup itself raises. -/
def envRaise : Env :=
  ⟨fun _ => none, fun _ => none, fun _ => none, fun _ => true, id,
   fun pool k => pool.take k⟩

/-- Environment in which the Spotify lookup succeeds but the Deezer
name-search finds no match. -/
def envNoMatch : Env :=
  ⟨fun _ => some ⟨"X", []⟩, fun _ => none, fun _ => some [], fun _ => true, id,
   fun pool k => pool.take k⟩

/-- Environment in which every lookup and download succeeds; every artist
except `r` has the single relative `r`. -/
def envOk : Env :=
  ⟨fun i => some ⟨"N" ++ i, []⟩, fun _ => some ⟨7, "D"⟩,
   fun i => if i = "r" then some [] else some [⟨"r", "R"⟩],
   fun _ => true, id, fun pool k => pool.take k⟩

/-- A run configuration: cap 10 artists, 5 workers, no wild flags, depth
cap 3, 5 relatives per node. -/
def cfg0 : Config := ⟨"", 10, 5, false, false, 3, 5⟩

/-- The state at the start of a run. -/
def emptyState : DState := ⟨[], [], [], []⟩

/-- Does the event list contain a per-artist finished event
(`artist_finished_callback` call)? -/
def hasFinishedEvent (evs : List Event) : Bool :=
  evs.any fun e =>
    match e with
    | Event.artistFinished _ _ => true
    | _ => false

/-! ## Claims -/

/-- C1, counterexample: a node that passes the de-duplication check (its id
lands in the processed-set) but whose Deezer name-resolution yields no match
produces only the log line — no per-artist finished event is emitted, contrary
to the claim that every dispatched node gets one (failure entry on failure). -/
theorem spec_c1_cex :
    (process_artist cfg0 envNoMatch emptyState ⟨"x", "X", 0⟩).1.processed = ["x"]
    ∧ (process_artist cfg0 envNoMatch emptyState ⟨"x", "X", 0⟩).2
        = [Event.output "Could not find Deezer artist for: X"]
    ∧ hasFinishedEvent (process_artist cfg0 envNoMatch emptyState ⟨"x", "X", 0⟩).2
        = false := by
  refine ⟨by decide, by decide, by decide⟩

/-- C1, amended: for a node that wins the de-duplication check, a per-artist
finished event is emitted exactly when name resolution succeeds (with the
download's success flag, on download success and failure alike); when the
Spotify lookup raises, or name resolution yields no match, only a log line is
emitted — no finished event, and in the no-match case the downloader is not
invoked (the emitted trace is exactly the one log line). -/
theorem spec_c1 (cfg : Config) (env : Env) (s : DState) (node : Node)
    (hd : ¬ (node.spotify_id ∈ s.processed ∨ cfg.max_artists ≤ s.processed.length)) :
    (env.spArtist node.spotify_id = none →
      (process_artist cfg env s node).2
        = [Event.output ("Error processing artist " ++ node.name)])
    ∧ (∀ sa, env.spArtist node.spotify_id = some sa →
        env.findDeezer sa.name = none →
        (process_artist cfg env s node).2
          = [Event.output ("Could not find Deezer artist for: " ++ node.name)])
    ∧ (∀ sa da, env.spArtist node.spotify_id = some sa →
        env.findDeezer sa.name = some da →
        Event.artistFinished
            (sa.name ++ "|" ++ node.spotify_id ++ "|" ++ toString da.id)
            (env.downloadOk da.id)
          ∈ (process_artist cfg env s node).2) := by
  have hpa : process_artist cfg env s node
      = processDispatched cfg env
          { s with processed := s.processed ++ [node.spotify_id] } node := by
    simp [process_artist, hd]
  refine ⟨?_, ?_, ?_⟩
  · intro h
    rw [hpa]
    simp [processDispatched, h]
  · intro sa h h2
    rw [hpa]
    simp [processDispatched, h, h2]
  · intro sa da h h2
    rw [hpa]
    unfold processDispatched
    rw [h]
    dsimp only
    rw [h2]
    dsimp only
    rw [download_artist_fst]
    split <;> simp

/-- C1 witness: concrete instances of all three cases of the amended claim. -/
theorem spec_c1_witness :
    ((process_artist cfg0 envRaise emptyState ⟨"x", "X", 0⟩).2
        = [Event.output "Error processing artist X"])
    ∧ ((process_artist cfg0 envNoMatch emptyState ⟨"x", "X", 0⟩).2
        = [Event.output "Could not find Deezer artist for: X"])
    ∧ (Event.artistFinished "Nx|x|7" true
        ∈ (process_artist cfg0 envOk emptyState ⟨"x", "X", 0⟩).2) := by
  refine ⟨(spec_c1 cfg0 envRaise emptyState ⟨"x", "X", 0⟩ (by decide)).1 rfl,
          (spec_c1 cfg0 envNoMatch emptyState ⟨"x", "X", 0⟩ (by decide)).2.1 ⟨"X", []⟩ rfl rfl,
          ?_⟩
  exact (spec_c1 cfg0 envOk emptyState ⟨"x", "X", 0⟩ (by decide)).2.2 ⟨"Nx", []⟩ ⟨7, "D"⟩ rfl rfl

/-- C2: the de-duplication check-and-insert admits exactly one winner.  For
any sequence of `process_artist` invocations all carrying the same identifier
(the linearisation the mutex enforces), starting from a state that does not
contain the identifier and has room under the cap, exactly one invocation
wins; any invocation on an already-processed identifier returns with no event
and no state change; and the processed-set never acquires a duplicate, so an
identifier is added at most once. -/
theorem spec_c2 (cfg : Config) (env : Env) (s : DState) (nodes : List Node)
    (id : String)
    (hid : ∀ n ∈ nodes, n.spotify_id = id)
    (hne : nodes ≠ [])
    (hmem : id ∉ s.processed)
    (hcap : s.processed.length < cfg.max_artists)
    (hnd : s.processed.Nodup) :
    winCount cfg env s nodes = 1
    ∧ (∀ (s' : DState) (n : Node), n.spotify_id ∈ s'.processed →
        process_artist cfg env s' n = (s', []))
    ∧ (runCalls cfg env s nodes).processed.Nodup := by
  have hzero : ∀ (ns : List Node) (t : DState), (∀ n ∈ ns, n.spotify_id = id) →
      id ∈ t.processed → winCount cfg env t ns = 0 := by
    intro ns
    induction ns with
    | nil => intro t _ _; rfl
    | cons n ns ih =>
      intro t hall hmem'
      have hn : n.spotify_id = id := hall n (by simp)
      have hdisp : dispatches cfg t n = false := by
        simp [dispatches, hn, hmem']
      show (if dispatches cfg t n then 1 else 0) + _ = 0
      rw [hdisp]
      simp only [if_neg Bool.false_ne_true, Nat.zero_add]
      exact ih _ (fun m hm => hall m (by simp [hm]))
        (process_artist_processed_mono cfg env t n id (hn ▸ hmem'))
  refine ⟨?_, fun s' n h => process_artist_noop cfg env s' n h,
         runCalls_nodup cfg env s nodes hnd⟩
  obtain ⟨n, ns, rfl⟩ := List.exists_cons_of_ne_nil hne
  have hn : n.spotify_id = id := hid n (by simp)
  have hdisp : dispatches cfg s n = true := by
    simp [dispatches, hn, hmem, hcap]
  have hins : id ∈ (process_artist cfg env s n).1.processed := by
    rw [process_artist_processed, hn]
    rw [if_neg (by push_neg; exact ⟨hmem, hcap⟩)]
    simp
  show (if dispatches cfg s n then 1 else 0) + _ = 1
  rw [hdisp, if_pos rfl,
    hzero ns _ (fun m hm => hid m (by simp [hm])) hins]

/-- C2 witness: two invocations with the same identifier from the empty
state — the first wins, the second is a silent no-op, and no duplicate is
added. -/
theorem spec_c2_witness :
    winCount cfg0 envOk emptyState [⟨"x", "X", 0⟩, ⟨"x", "X", 0⟩] = 1
    ∧ process_artist cfg0 envOk ⟨["x"], [], [], []⟩ ⟨"x", "X", 0⟩
        = (⟨["x"], [], [], []⟩, [])
    ∧ (runCalls cfg0 envOk emptyState [⟨"x", "X", 0⟩, ⟨"x", "X", 0⟩]).processed.Nodup := by
  have h := spec_c2 cfg0 envOk emptyState [⟨"x", "X", 0⟩, ⟨"x", "X", 0⟩] "x"
    (by decide) (by decide) (by decide) (by decide) (by decide)
  exact ⟨h.1, h.2.1 ⟨["x"], [], [], []⟩ ⟨"x", "X", 0⟩ (by decide), h.2.2⟩

/-- C3: the processed-set never exceeds the configured artist cap — at every
point of any linearised sequence of `process_artist` invocations (every
prefix of the call sequence), and in particular at the end, its size is at
most `max_artists`; the check-and-insert refuses to insert at the cap. -/
theorem spec_c3 (cfg : Config) (env : Env) (s : DState)
    (nodes pre : List Node)
    (h0 : s.processed.length ≤ cfg.max_artists)
    (_hpre : pre <+: nodes) :
    (runCalls cfg env s pre).processed.length ≤ cfg.max_artists := by
  exact runCalls_length_le cfg env s pre h0

/-- C3 witness: a three-call prefix of a four-call sequence on a cap-2
configuration stays within the cap. -/
theorem spec_c3_witness :
    (runCalls ⟨"", 2, 5, false, false, 3, 5⟩ envOk emptyState
        [⟨"a", "A", 0⟩, ⟨"b", "B", 0⟩, ⟨"c", "C", 0⟩]).processed.length
      ≤ (⟨"", 2, 5, false, false, 3, 5⟩ : Config).max_artists := by
  exact spec_c3 ⟨"", 2, 5, false, false, 3, 5⟩ envOk emptyState
    [⟨"a", "A", 0⟩, ⟨"b", "B", 0⟩, ⟨"c", "C", 0⟩, ⟨"d", "D", 0⟩]
    [⟨"a", "A", 0⟩, ⟨"b", "B", 0⟩, ⟨"c", "C", 0⟩]
    (by decide) ⟨[⟨"d", "D", 0⟩], rfl⟩

/-- C4: every node a `process_artist` invocation adds to the queue is a child
created at exactly the parent's depth plus one, children are only created
when the parent's depth is strictly below the depth cap, and consequently no
enqueued node's depth exceeds the cap. -/
theorem spec_c4 (cfg : Config) (env : Env) (s : DState) (node : Node) :
    ∀ c ∈ (process_artist cfg env s node).1.queue,
      c ∈ s.queue
      ∨ (c.depth = node.depth + 1 ∧ node.depth < cfg.max_depth
          ∧ c.depth ≤ cfg.max_depth) := by
  intro c hc
  unfold process_artist at hc
  split at hc
  · exact Or.inl hc
  · rcases processDispatched_queue cfg env
        { s with processed := s.processed ++ [node.spotify_id] } node c hc with h | h
    · exact Or.inl h
    · exact Or.inr ⟨h.1, h.2, by omega⟩

/-- C4 witness: the child enqueued for the root's relative sits at depth 1 =
0 + 1 ≤ 3. -/
theorem spec_c4_witness :
    (⟨"r", "R", 1⟩ : Node) ∈ emptyState.queue
    ∨ ((⟨"r", "R", 1⟩ : Node).depth = (⟨"x", "X", 0⟩ : Node).depth + 1
        ∧ (⟨"x", "X", 0⟩ : Node).depth < cfg0.max_depth
        ∧ (⟨"r", "R", 1⟩ : Node).depth ≤ cfg0.max_depth) := by
  exact spec_c4 cfg0 envOk emptyState ⟨"x", "X", 0⟩ ⟨"r", "R", 1⟩ (by decide)

/-- C5: with limit 3, candidate genres
`[pop], [pop], [rock], [jazz], [pop]` and processed-genre-set `{pop}`
(source genres a subset of it), the heuristic keeps exactly candidates 3 and
4 and tops up with exactly one artist sampled without replacement from
candidates 1, 2 and 5, returning 3 artists.  `hlen`/`hmem` are the contract
of `random.sample` (a sample of requested size, drawn from the pool). -/
theorem spec_c5 (env : Env)
    (h1 : env.spArtist "1" = some ⟨"A1", ["pop"]⟩)
    (h2 : env.spArtist "2" = some ⟨"A2", ["pop"]⟩)
    (h3 : env.spArtist "3" = some ⟨"A3", ["rock"]⟩)
    (h4 : env.spArtist "4" = some ⟨"A4", ["jazz"]⟩)
    (h5 : env.spArtist "5" = some ⟨"A5", ["pop"]⟩)
    (hlen : ∀ pool k, k ≤ pool.length → (env.sample pool k).length = k)
    (hmem : ∀ pool k x, x ∈ env.sample pool k → x ∈ pool) :
    (get_wildly_different_artists env 3 ⟨"S", ["pop"]⟩
        [⟨"1", "A1"⟩, ⟨"2", "A2"⟩, ⟨"3", "A3"⟩, ⟨"4", "A4"⟩, ⟨"5", "A5"⟩] ["pop"]).1
      = [⟨"3", "A3"⟩, ⟨"4", "A4"⟩]
          ++ env.sample [⟨"1", "A1"⟩, ⟨"2", "A2"⟩, ⟨"5", "A5"⟩] 1
    ∧ (get_wildly_different_artists env 3 ⟨"S", ["pop"]⟩
        [⟨"1", "A1"⟩, ⟨"2", "A2"⟩, ⟨"3", "A3"⟩, ⟨"4", "A4"⟩, ⟨"5", "A5"⟩] ["pop"]).1.length
        = 3
    ∧ ∀ x ∈ env.sample [⟨"1", "A1"⟩, ⟨"2", "A2"⟩, ⟨"5", "A5"⟩] 1,
        x ∈ ([⟨"1", "A1"⟩, ⟨"2", "A2"⟩, ⟨"5", "A5"⟩] : List RelArtist) := by
  have hout : (get_wildly_different_artists env 3 ⟨"S", ["pop"]⟩
      [⟨"1", "A1"⟩, ⟨"2", "A2"⟩, ⟨"3", "A3"⟩, ⟨"4", "A4"⟩, ⟨"5", "A5"⟩] ["pop"]).1
      = [⟨"3", "A3"⟩, ⟨"4", "A4"⟩]
          ++ env.sample [⟨"1", "A1"⟩, ⟨"2", "A2"⟩, ⟨"5", "A5"⟩] 1 := by
    simp [get_wildly_different_artists, gwdaKeep, unionGenres, insertNew,
      topUpCount, h1, h2, h3, h4, h5]
  refine ⟨hout, ?_, fun x hx => hmem _ _ x hx⟩
  rw [hout]
  simp [hlen [⟨"1", "A1"⟩, ⟨"2", "A2"⟩, ⟨"5", "A5"⟩] 1 (by simp)]

/-- C5's concrete sampler: `random.sample` realised as taking a prefix. -/
def c5env : Env :=
  ⟨fun i =>
      if i = "1" then some ⟨"A1", ["pop"]⟩
      else if i = "2" then some ⟨"A2", ["pop"]⟩
      else if i = "3" then some ⟨"A3", ["rock"]⟩
      else if i = "4" then some ⟨"A4", ["jazz"]⟩
      else if i = "5" then some ⟨"A5", ["pop"]⟩
      else none,
    fun _ => none, fun _ => none, fun _ => true, id,
    fun pool k => pool.take k⟩

/-- C5 witness: the scenario instantiated with the prefix sampler. -/
theorem spec_c5_witness :
    (get_wildly_different_artists c5env 3 ⟨"S", ["pop"]⟩
        [⟨"1", "A1"⟩, ⟨"2", "A2"⟩, ⟨"3", "A3"⟩, ⟨"4", "A4"⟩, ⟨"5", "A5"⟩] ["pop"]).1
      = [⟨"3", "A3"⟩, ⟨"4", "A4"⟩]
          ++ c5env.sample [⟨"1", "A1"⟩, ⟨"2", "A2"⟩, ⟨"5", "A5"⟩] 1
    ∧ (get_wildly_different_artists c5env 3 ⟨"S", ["pop"]⟩
        [⟨"1", "A1"⟩, ⟨"2", "A2"⟩, ⟨"3", "A3"⟩, ⟨"4", "A4"⟩, ⟨"5", "A5"⟩] ["pop"]).1.length
        = 3 := by
  have h := spec_c5 c5env rfl rfl rfl rfl rfl
    (by
      intro pool k hk
      show (pool.take k).length = k
      simp [List.length_take, Nat.min_eq_left hk])
    (by
      intro pool k x hx
      exact List.take_subset k pool hx)
  exact ⟨h.1, h.2.1⟩

/-- C6: the heuristic returns at most `related_limit` artists (the GUI
spinbox constrains the configured limit to at least 1), and the count handed
to `random.sample` in the top-up step is capped at the size of the remaining
unkept-candidate pool, so the sample request never exceeds the pool.
`hsample` is the size contract of `random.sample`. -/
theorem spec_c6 (cfg : Config) (env : Env) (source : SpArtist)
    (rel : List RelArtist) (genres0 : List String)
    (hlimit : 1 ≤ cfg.related_limit)
    (hsample : ∀ pool k, k ≤ pool.length → (env.sample pool k).length = k) :
    (get_wildly_different_artists env cfg.related_limit source rel genres0).1.length
      ≤ cfg.related_limit
    ∧ ∀ keptLen poolLen,
        topUpCount cfg.related_limit keptLen poolLen ≤ poolLen :=
  ⟨get_wildly_different_length_le env cfg.related_limit source rel genres0
      hlimit hsample,
   fun _ _ => Nat.min_le_left _ _⟩

/-- C6 witness: the cap holds on the C5 scenario (limit 3, 5 candidates). -/
theorem spec_c6_witness :
    (get_wildly_different_artists c5env
        (⟨"", 10, 5, false, false, 3, 3⟩ : Config).related_limit ⟨"S", ["pop"]⟩
        [⟨"1", "A1"⟩, ⟨"2", "A2"⟩, ⟨"3", "A3"⟩, ⟨"4", "A4"⟩, ⟨"5", "A5"⟩] ["pop"]).1.length
      ≤ (⟨"", 10, 5, false, false, 3, 3⟩ : Config).related_limit
    ∧ topUpCount (⟨"", 10, 5, false, false, 3, 3⟩ : Config).related_limit 2 3 ≤ 3 := by
  have h := spec_c6 ⟨"", 10, 5, false, false, 3, 3⟩ c5env ⟨"S", ["pop"]⟩
    [⟨"1", "A1"⟩, ⟨"2", "A2"⟩, ⟨"3", "A3"⟩, ⟨"4", "A4"⟩, ⟨"5", "A5"⟩] ["pop"]
    (by decide)
    (by
      intro pool k hk
      show (pool.take k).length = k
      simp [List.length_take, Nat.min_eq_left hk])
  exact ⟨h.1, h.2 2 3⟩

/-- C7: the identifier the driver's regex extracts from
`https://open.spotify.com/artist/ABC123` is exactly `ABC123`; a URL on a
non-allow-listed domain fails `is_valid_url`, and on such a link `run`
emits exactly the rejection log line and the finished signal — for every
environment, so no catalog lookup or download is attempted. -/
theorem spec_c7 (cfg : Config) (env : Env) (flagAt : Nat → Bool) (fuel : Nat)
    (hlink : cfg.spotify_link = "https://example.com/artist/ABC123") :
    extract_artist_id "https://open.spotify.com/artist/ABC123" = some "ABC123"
    ∧ is_valid_url "https://example.com/artist/ABC123" ["open.spotify.com"] = false
    ∧ run cfg env flagAt fuel
        = [Event.output "Invalid Spotify URL. Please provide a valid Spotify artist link.",
           Event.finished] := by
  refine ⟨by decide, by decide, ?_⟩
  unfold run
  rw [hlink]
  rw [if_pos (by decide)]

/-- C7 witness: instantiated at a concrete configuration and environment. -/
theorem spec_c7_witness :
    extract_artist_id "https://open.spotify.com/artist/ABC123" = some "ABC123"
    ∧ is_valid_url "https://example.com/artist/ABC123" ["open.spotify.com"] = false
    ∧ run ⟨"https://example.com/artist/ABC123", 10, 5, false, false, 3, 5⟩ envOk
          (fun _ => true) 3
        = [Event.output "Invalid Spotify URL. Please provide a valid Spotify artist link.",
           Event.finished] :=
  spec_c7 ⟨"https://example.com/artist/ABC123", 10, 5, false, false, 3, 5⟩ envOk
    (fun _ => true) 3 rfl

/-- C8: the driver reads the cooperative flag at the top of each loop
iteration: if the flag reads false at iteration `i`, no batch is dispatched
from that point on; if the loop condition holds at iteration `i`, the whole
dispatched batch is processed to completion — every event its workers emit,
including each artist's outcome, precedes anything of iteration `i + 1`,
in particular a stop there; and the run's final event is always the finished
signal, so in-flight outcomes are reported before the run stops. -/
theorem spec_c8 (cfg : Config) (env : Env) (flagAt : Nat → Bool) (fuel i : Nat)
    (s : DState) :
    (flagAt i = false → runLoop cfg env flagAt (fuel + 1) i s = [])
    ∧ (s.queue ≠ [] → s.processed.length < cfg.max_artists → flagAt i = true →
        runLoop cfg env flagAt (fuel + 1) i s =
          (processBatch cfg env
              { s with queue := s.queue.drop (min cfg.max_concurrent s.queue.length) }
              (s.queue.take (min cfg.max_concurrent s.queue.length))).2
            ++ runLoop cfg env flagAt fuel (i + 1)
                (processBatch cfg env
                  { s with queue := s.queue.drop (min cfg.max_concurrent s.queue.length) }
                  (s.queue.take (min cfg.max_concurrent s.queue.length))).1)
    ∧ (run cfg env flagAt fuel).getLast? = some Event.finished := by
  refine ⟨?_, ?_, ?_⟩
  · intro h
    simp [runLoop, h]
  · intro h1 h2 h3
    conv_lhs => simp only [runLoop]
    rw [if_pos ⟨h1, h2, h3⟩]
  · unfold run
    split
    · rfl
    · cases extract_artist_id cfg.spotify_link with
      | none => rfl
      | some aid =>
        dsimp only
        cases env.spArtist aid with
        | none => rfl
        | some sa =>
          dsimp only
          rw [← List.cons_append, List.getLast?_append_cons]
          rfl

/-- The driver state right after seeding: the root artist queued, nothing
processed. -/
def seedState : DState := ⟨[], [], [⟨"x", "X", 0⟩], []⟩

/-- C8 witness: with the flag down no batch is dispatched; with the flag up
the seeded batch runs to completion before iteration 1; the trace ends in
the finished signal. -/
theorem spec_c8_witness :
    (runLoop cfg0 envOk (fun _ => false) 1 0 seedState = [])
    ∧ (runLoop cfg0 envOk (fun _ => true) 1 0 seedState =
        (processBatch cfg0 envOk
            { seedState with
                queue := seedState.queue.drop (min cfg0.max_concurrent seedState.queue.length) }
            (seedState.queue.take (min cfg0.max_concurrent seedState.queue.length))).2
          ++ runLoop cfg0 envOk (fun _ => true) 0 1
              (processBatch cfg0 envOk
                { seedState with
                    queue := seedState.queue.drop (min cfg0.max_concurrent seedState.queue.length) }
                (seedState.queue.take (min cfg0.max_concurrent seedState.queue.length))).1)
    ∧ (run cfg0 envOk (fun _ => false) 0).getLast? = some Event.finished :=
  ⟨(spec_c8 cfg0 envOk (fun _ => false) 0 0 seedState).1 rfl,
   (spec_c8 cfg0 envOk (fun _ => true) 0 0 seedState).2.1 (by decide) (by decide) rfl,
   (spec_c8 cfg0 envOk (fun _ => false) 0 0 seedState).2.2⟩

/-- C9: `is_valid_url` tests substring containment of each allowed domain in
the netloc, not exact host equality: any URL whose netloc merely contains an
allow-listed domain is accepted, e.g. one with netloc
`open.spotify.com.attacker.example`. -/
theorem spec_c9 :
    (∀ (url : String) (ds : List String) (d : String), d ∈ ds →
        isSubstring d.toList (urlparse url).2.toList = true →
        (urlparse url).1.isEmpty = false →
        (urlparse url).2.isEmpty = false →
        is_valid_url url ds = true)
    ∧ is_valid_url "https://open.spotify.com.attacker.example/artist/ABC123"
        ["open.spotify.com"] = true
    ∧ (urlparse "https://open.spotify.com.attacker.example/artist/ABC123").2
        = "open.spotify.com.attacker.example" := by
  refine ⟨?_, by decide, by decide⟩
  intro url ds d hd hsub hs hn
  dsimp only [is_valid_url]
  rw [hs, hn]
  simp only [Bool.not_false, Bool.true_and]
  rw [List.any_eq_true]
  exact ⟨d, hd, hsub⟩

/-- C9 witness: containment accepted on a second crafted netloc. -/
theorem spec_c9_witness :
    is_valid_url "http://evil.open.spotify.com.example/x" ["open.spotify.com"] = true :=
  spec_c9.1 "http://evil.open.spotify.com.example/x" ["open.spotify.com"]
    "open.spotify.com" (by decide) (by decide) (by decide) (by decide)

/-- State after the first parent `p1` has been processed (its relative `r`
enqueued and recorded as a child). -/
def c10s1 : DState := (process_artist cfg0 envOk emptyState ⟨"p1", "P1", 0⟩).1

/-- State after the child `r` has then been dispatched and processed. -/
def c10s2 : DState := (process_artist cfg0 envOk c10s1 ⟨"r", "R", 1⟩).1

/-- State after the second parent `p2` has been processed. -/
def c10s3 : DState := (process_artist cfg0 envOk c10s2 ⟨"p2", "P2", 0⟩).1

/-- C10: the same source identifier can be enqueued twice and appear as a
child under two different parents — child creation never consults the
processed-set (`r` is re-enqueued by `p2` although `r` was already
dispatched) — and de-duplication happens only at dispatch time, where
`process_artist` on the already-processed `r` returns silently: no event,
no change to tree, queue or processed-set. -/
theorem spec_c10 :
    c10s3.edges = [("p1", ⟨"r", "R", 1⟩), ("p2", ⟨"r", "R", 1⟩)]
    ∧ c10s3.queue = [⟨"r", "R", 1⟩, ⟨"r", "R", 1⟩]
    ∧ "r" ∈ c10s2.processed
    ∧ process_artist cfg0 envOk c10s3 ⟨"r", "R", 1⟩ = (c10s3, []) := by
  refine ⟨by decide, by decide, by decide, by decide⟩

end DeezNuts
